import Mathlib

/-!
Shallow embedding of `spotify_analysis.ipynb`.

The notebook is a pandas ETL-and-report pipeline over Spotify streaming-history
JSON exports.  We embed it as follows:

* a parsed JSON record (`RawEvent`) is a structure whose fields are the source
  columns used by the notebook; nullable columns (`master_metadata_*`,
  `ms_played`) are `Option`-valued, matching pandas `NaN`/`None` cells;
* float columns are embedded as `ℚ` (exact real arithmetic);
* `pd.to_datetime(df.ts)` followed by `strftime` year/month extraction is
  abstracted: `RawEvent.ts` carries the calendar `(year, month)` of the parsed
  timestamp, which is all the notebook reads from the `ts` column;
* a DataFrame is a `List` of rows in order; `pd.concat(..., ignore_index)` is
  list concatenation;
* `df.groupby(ks).agg(sum)` is: collect the non-null key values (pandas
  `groupby` drops rows whose key is null), deduplicate, sort ascending (pandas
  `groupby(sort=True)`, the default), and for every group sum the measure over
  the group's rows, with null measures skipped (pandas `sum` skipna);
* `sort_values(c, ascending=False)` is a stable sort (`List.insertionSort`) by
  the measure, descending; Python string comparison is code-point lexicographic
  comparison, i.e. `≤` on `String.data`;
* `round(2)` is numpy half-to-even rounding at the second decimal;
* `df.rename(columns=...)` acts on the schema (the list of column names); the
  pandas default `errors` policy silently ignores mapping keys that are not
  present as columns;
* fallible steps (`pd.concat` of an empty list raises `ValueError`) live in
  `Except String`.
-/

namespace SpotifyAnalysis

/-- Integer nearest with ties to even, as numpy `rint`/`around` rounds. -/
def nearestEvenInt (q : ℚ) : ℤ :=
  if q - ⌊q⌋ < 1/2 then ⌊q⌋
  else if 1/2 < q - ⌊q⌋ then ⌊q⌋ + 1
  else if ⌊q⌋ % 2 = 0 then ⌊q⌋ else ⌊q⌋ + 1

/-- `DataFrame.round(2)` on one cell: round half-to-even at the 2nd decimal. -/
def round2 (q : ℚ) : ℚ := (nearestEvenInt (q * 100) : ℚ) / 100

/-- One parsed Spotify streaming record, with the columns the notebook uses.
`ts` abstracts the parsed timestamp by the only data the notebook extracts
from it: the calendar `(year, month)` pair.  The three `master_metadata_*`
columns and `ms_played` may be null for non-music content. -/
structure RawEvent where
  ts : Int × Int
  master_metadata_album_artist_name : Option String
  master_metadata_album_album_name : Option String
  master_metadata_track_name : Option String
  ms_played : Option ℚ
deriving DecidableEq

/-- A row of the enriched table: the renamed metadata columns
(`artist`, `album`, `song`), the timestamp-derived columns, and the
duration-derived columns of the cleansing cells. -/
structure Event where
  artist : Option String
  album : Option String
  song : Option String
  Year : Int
  Month : Int
  ms_played : Option ℚ
  mins_played : Option ℚ
  hours_played : Option ℚ
  days_played : Option ℚ
deriving DecidableEq

/-- The data-cleansing cells applied to one row:
`mins_played = ms_played/60000`, `hours_played = mins_played/60`,
`days_played = hours_played/24` (a null `ms_played` propagates as null, as
pandas `NaN` does under division), plus the column renames. -/
def enrich_row (r : RawEvent) : Event :=
  let mins := r.ms_played.map (fun m => m / 60000)
  let hours := mins.map (fun m => m / 60)
  let days := hours.map (fun h => h / 24)
  { artist := r.master_metadata_album_artist_name
    album := r.master_metadata_album_album_name
    song := r.master_metadata_track_name
    Year := r.ts.1
    Month := r.ts.2
    ms_played := r.ms_played
    mins_played := mins
    hours_played := hours
    days_played := days }

/-- The whole cleansing stage on the unified table. -/
def enrich (df : List RawEvent) : List Event := df.map enrich_row

/-- Python `name.endswith(".json")` (code-point suffix test). -/
def hasJsonExt (name : String) : Bool := ".json".data.isSuffixOf name.data

/-- `read_jsons_to_df`: a directory is a list of `(filename, parsed rows)`
entries in enumeration order.  The files whose name ends in `.json` are kept,
each is read to a table, and `pd.concat(df_list, ignore_index=True)`
concatenates them; `pd.concat` of an empty list raises `ValueError`. -/
def read_jsons_to_df (data_dir : List (String × List RawEvent)) :
    Except String (List RawEvent) :=
  let json_files := data_dir.filter (fun f => hasJsonExt f.1)
  let df_list := json_files.map (fun f => f.2)
  if df_list.isEmpty then Except.error "No objects to concatenate"
  else Except.ok df_list.flatten

/-- The column mapping of the rename cell. -/
def rename_mapping : List (String × String) :=
  [("master_metadata_album_artist_name", "artist"),
   ("master_metadata_album_album_name", "album"),
   ("master_metadata_track_name", "song")]

/-- `df.rename(columns=rename_mapping)` on the schema.  Each column label that
is a key of the mapping is replaced by its image; every other label passes
through.  With the pandas default `errors` policy the call never raises, so
the result is always `Except.ok`. -/
def df_rename (cols : List String) : Except String (List String) :=
  Except.ok (cols.map (fun c =>
    (((rename_mapping.find? (fun p => p.1 == c)).map (fun p => p.2)).getD c)))

/-- pandas column sum: null cells are skipped (`skipna`), an all-null or empty
column sums to `0`. -/
def optSum (xs : List (Option ℚ)) : ℚ := (xs.filterMap id).sum

/-- One output row of a `groupby(ks).agg(sum)` cell after `set_axis`:
the group key and the three summed measures. -/
structure AggRow (κ : Type) where
  key : κ
  mins_played : ℚ
  hours_played : ℚ
  days_played : ℚ
deriving DecidableEq

/-- The comparison `sort_values("mins_played", ascending=False)` sorts by. -/
def mins_desc {κ : Type} (a b : AggRow κ) : Prop :=
  b.mins_played ≤ a.mins_played

instance {κ : Type} : DecidableRel (@mins_desc κ) :=
  fun _ _ => inferInstanceAs (Decidable (_ ≤ _))

/-- Python string order: code-point lexicographic. -/
def strDataLe (a b : String) : Prop := a.data ≤ b.data

instance : DecidableRel strDataLe := fun _ _ => inferInstanceAs (Decidable (_ ≤ _))

/-- Python order on `(artist, Year)` group keys. -/
def artistYearLe (a b : String × Int) : Prop :=
  a.1.data < b.1.data ∨ (a.1 = b.1 ∧ a.2 ≤ b.2)

instance : DecidableRel artistYearLe :=
  fun _ _ => inferInstanceAs (Decidable (_ ∨ _))

/-- The rows of `df` lying in the group of key `k`. -/
def rowsWithKey {κ : Type} [DecidableEq κ] (keyf : Event → Option κ)
    (df : List Event) (k : κ) : List Event :=
  df.filter (fun r => keyf r = some k)

/-- `df.groupby(ks).agg({mins,hours,days: sum}).set_axis(...)`: rows whose key
is null are dropped (pandas `groupby` default `dropna=True`), the distinct keys
are listed ascending (pandas `groupby` default `sort=True`), and each measure
is summed per group with nulls skipped. -/
def groupAggSum {κ : Type} [DecidableEq κ] (kle : κ → κ → Prop)
    [DecidableRel kle] (keyf : Event → Option κ) (df : List Event) :
    List (AggRow κ) :=
  (List.insertionSort kle (df.filterMap keyf).dedup).map (fun k =>
    { key := k
      mins_played := optSum ((rowsWithKey keyf df k).map (fun r => r.mins_played))
      hours_played := optSum ((rowsWithKey keyf df k).map (fun r => r.hours_played))
      days_played := optSum ((rowsWithKey keyf df k).map (fun r => r.days_played)) })

/-- `sort_values("mins_played", ascending=False)` as a stable sort. -/
def sort_values_mins_desc {κ : Type} (rows : List (AggRow κ)) : List (AggRow κ) :=
  List.insertionSort mins_desc rows

/-- `round(2)` on an aggregate row (the key is untouched). -/
def roundAggRow {κ : Type} (g : AggRow κ) : AggRow κ :=
  { key := g.key
    mins_played := round2 g.mins_played
    hours_played := round2 g.hours_played
    days_played := round2 g.days_played }

/-- `list_time_by_artist` before the `round(2)` reassignment: group by artist,
sum the three measures, sort descending by summed minutes. -/
def list_time_by_artist0 (df : List Event) : List (AggRow String) :=
  sort_values_mins_desc (groupAggSum strDataLe (fun r => r.artist) df)

/-- `list_time_by_artist` as the notebook leaves it: the aggregation above,
rounded to 2 decimals. -/
def list_time_by_artist (df : List Event) : List (AggRow String) :=
  (list_time_by_artist0 df).map roundAggRow

/-- `list_time_by_album` (same cell shape with the `album` key). -/
def list_time_by_album (df : List Event) : List (AggRow String) :=
  (sort_values_mins_desc (groupAggSum strDataLe (fun r => r.album) df)).map roundAggRow

/-- `list_time_by_song` (same cell shape with the `song` key). -/
def list_time_by_song (df : List Event) : List (AggRow String) :=
  (sort_values_mins_desc (groupAggSum strDataLe (fun r => r.song) df)).map roundAggRow

/-- `top_15_artists = list_time_by_artist.sort_values("mins_played",
ascending=False).head(15)`.  Note the notebook re-sorts the *rounded* table. -/
def top_15_artists (df : List Event) : List (AggRow String) :=
  (sort_values_mins_desc (list_time_by_artist df)).take 15

/-- `filtered_df = df[df.artist.isin(top_15_artists.index)]`; a null artist is
never a member of the index. -/
def filtered_df (df : List Event) : List Event :=
  df.filter (fun r => (top_15_artists df).any (fun g => r.artist = some g.key))

/-- The `groupby(["artist", "Year"])` key of a row (null iff artist is null). -/
def artistYearKey (r : Event) : Option (String × Int) :=
  r.artist.map (fun a => (a, r.Year))

/-- `list_time_by_month` before its `round(2)` reassignment: `filtered_df`
grouped by artist and year, measures summed, sorted descending by minutes. -/
def list_time_by_month0 (df : List Event) : List (AggRow (String × Int)) :=
  sort_values_mins_desc (groupAggSum artistYearLe artistYearKey (filtered_df df))

/-- `list_time_by_month` as charted: the above, rounded to 2 decimals
(`reset_index` does not change the embedded row data). -/
def list_time_by_month (df : List Event) : List (AggRow (String × Int)) :=
  (list_time_by_month0 df).map roundAggRow

/-- pandas `Series.nunique`: the number of distinct non-null values. -/
def nunique (xs : List (Option String)) : Nat := (xs.filterMap id).dedup.length

/-- `nunique_by_year = df.groupby("Year").agg({"artist": ["nunique"]})`:
the distinct years ascending, each with the count of distinct non-null
artists among that year's rows. -/
def nunique_by_year (df : List Event) : List (Int × Nat) :=
  (List.insertionSort (fun a b : Int => a ≤ b) (df.map (fun r => r.Year)).dedup).map
    (fun y => (y, nunique ((df.filter (fun r => r.Year = y)).map (fun r => r.artist))))

/-- All-time summed minutes for one artist (null minutes skipped). -/
def artistTotalMins (df : List Event) (a : String) : ℚ :=
  optSum ((df.filter (fun r => r.artist = some a)).map (fun r => r.mins_played))

/-- The distinct non-null artist values of `df`, in dedup order. -/
def artistKeys (df : List Event) : List String :=
  (df.filterMap (fun r => r.artist)).dedup

/-- The non-null artist values of `df` in first-encounter order (the order the
spec's tie-breaking clause refers to). -/
def encounterOrder (df : List Event) : List String :=
  (df.filterMap (fun r => r.artist)).foldl
    (fun acc a => if a ∈ acc then acc else acc ++ [a]) []

/-- Distinct non-null artist count among the rows of year `y`. -/
def distinctArtistsInYear (df : List Event) (y : Int) : Nat :=
  nunique ((df.filter (fun r => r.Year = y)).map (fun r => r.artist))

instance {κ : Type} : IsTotal (AggRow κ) mins_desc :=
  ⟨fun a b => le_total b.mins_played a.mins_played⟩

instance {κ : Type} : IsTrans (AggRow κ) mins_desc :=
  ⟨fun _ _ _ hab hbc => le_trans hbc hab⟩

instance : IsTotal String strDataLe := ⟨fun a b => le_total a.data b.data⟩

instance : IsTrans String strDataLe := ⟨fun _ _ _ h1 h2 => le_trans h1 h2⟩

/-- Descending-minutes order refined by the grouping key: what a stable
descending sort produces out of a table whose keys strictly increase. -/
def aggLex {κ : Type} (klt : κ → κ → Prop) (a b : AggRow κ) : Prop :=
  b.mins_played < a.mins_played ∨ (b.mins_played = a.mins_played ∧ klt a.key b.key)

/-- The tie-breaking clause of the spec's sort contract: groups with equal
summed minutes appear in the order their keys are first encountered in the
table. -/
def tiesInEncounterOrder (df : List Event) : Prop :=
  (list_time_by_artist df).Pairwise (fun a b =>
    a.mins_played = b.mins_played →
      (encounterOrder df).indexOf a.key < (encounterOrder df).indexOf b.key)

/-! ### Example data used by witnesses and counterexamples -/

/-- A 2022 play of artist `A` with a null duration. -/
def exRaw1 : RawEvent :=
  { ts := (2022, 1)
    master_metadata_album_artist_name := some "A"
    master_metadata_album_album_name := some "P"
    master_metadata_track_name := some "s1"
    ms_played := none }

/-- A 2022 play of artist `B` with a null duration. -/
def exRaw2 : RawEvent :=
  { ts := (2022, 3)
    master_metadata_album_artist_name := some "B"
    master_metadata_album_album_name := some "Q"
    master_metadata_track_name := some "s2"
    ms_played := none }

/-- A podcast-like record: all metadata and the duration are null. -/
def exRawNull : RawEvent :=
  { ts := (2023, 5)
    master_metadata_album_artist_name := none
    master_metadata_album_album_name := none
    master_metadata_track_name := none
    ms_played := none }

/-- A directory with two `.json` files (1 and 2 rows) and one `.txt` file. -/
def exDir : List (String × List RawEvent) :=
  [("2022.json", [exRaw1]), ("2023_0.json", [exRaw2, exRawNull]), ("readme.txt", [exRaw1])]

/-- The spec scenario table for the distinct-count report: year 2022 has
artists `A`, `B`, `A` and year 2023 has artists `A`, `C` (durations null so
that they play no role). -/
def exC8r1 : RawEvent := ⟨(2022, 1), some "A", none, none, none⟩

def exC8 : List Event :=
  enrich
    [exC8r1,
     ⟨(2022, 2), some "B", none, none, none⟩,
     ⟨(2022, 3), some "A", none, none, none⟩,
     ⟨(2023, 1), some "A", none, none, none⟩,
     ⟨(2023, 2), some "C", none, none, none⟩]

/-- Two one-play artists with identical durations; `B` is encountered first,
`A` second. -/
def exC4 : List Event :=
  enrich
    [⟨(2022, 1), some "B", some "Q", some "s2", some 60000⟩,
     ⟨(2023, 1), some "A", some "P", some "s1", some 60000⟩]

/-- One-artist table used to instantiate C5: a single 2023 play of `X`. -/
def exC5 : List Event := enrich [⟨(2023, 1), some "X", some "B", some "S", some 60000⟩]

/-- Single play of 100 ms: its summed minutes `1/600` round to `0.00`. -/
def exC6 : List Event := enrich [⟨(2023, 1), some "A", some "P", some "S", some 100⟩]

/-! ### Sum lemmas for the grouped aggregation -/

lemma optSum_nil : optSum [] = 0 := rfl

lemma optSum_cons (x : Option ℚ) (xs : List (Option ℚ)) :
    optSum (x :: xs) = x.getD 0 + optSum xs := by
  cases x <;> simp [optSum, List.filterMap_cons]

lemma sum_map_add {α : Type} (l : List α) (f g : α → ℚ) :
    (l.map (fun x => f x + g x)).sum = (l.map f).sum + (l.map g).sum := by
  induction l with
  | nil => simp
  | cons x l ih => simp [ih]; ring

lemma sum_if_eq {κ : Type} [DecidableEq κ] :
    ∀ ks : List κ, ks.Nodup → ∀ a ∈ ks, ∀ c : ℚ,
      (ks.map (fun k => if a = k then c else 0)).sum = c := by
  intro ks
  induction ks with
  | nil => intro _ a ha; cases ha
  | cons k ks ih =>
    intro hnd a ha c
    rcases List.nodup_cons.1 hnd with ⟨hk, hnd'⟩
    rcases List.mem_cons.1 ha with rfl | ha'
    · have hzz : (ks.map (fun k => if a = k then c else 0)).sum = 0 := by
        rw [List.sum_eq_zero]
        intro x hx
        rcases List.mem_map.1 hx with ⟨b, hb, rfl⟩
        have : a ≠ b := fun h => hk (h ▸ hb)
        simp [this]
      simp [hzz]
    · have hak : a ≠ k := fun h => hk (h ▸ ha')
      simp only [List.map_cons, List.sum_cons, if_neg hak]
      rw [ih hnd' a ha' c]
      ring

lemma rowsWithKey_nil {κ : Type} [DecidableEq κ] (keyf : Event → Option κ) (k : κ) :
    rowsWithKey keyf [] k = [] := rfl

lemma rowsWithKey_cons {κ : Type} [DecidableEq κ] (keyf : Event → Option κ)
    (r : Event) (df : List Event) (k : κ) :
    rowsWithKey keyf (r :: df) k =
      if keyf r = some k then r :: rowsWithKey keyf df k else rowsWithKey keyf df k := by
  by_cases h : keyf r = some k <;> simp [rowsWithKey, List.filter_cons, h]

/-- Summing the per-group sums of a measure over a duplicate-free key list that
covers every non-null key of the table gives the ungrouped total of the measure
over the rows with a non-null key. -/
lemma group_sum_eq {κ : Type} [DecidableEq κ] (keyf : Event → Option κ)
    (m : Event → Option ℚ) (ks : List κ) (hnd : ks.Nodup) :
    ∀ df : List Event, (∀ r ∈ df, ∀ k, keyf r = some k → k ∈ ks) →
      (ks.map (fun k => optSum ((rowsWithKey keyf df k).map m))).sum
        = optSum ((df.filter (fun r => (keyf r).isSome)).map m) := by
  intro df
  induction df with
  | nil =>
    intro _
    simp [rowsWithKey, optSum]
  | cons r df ih =>
    intro hcov
    have hrest := ih (fun r' hr' => hcov r' (List.mem_cons_of_mem _ hr'))
    have hsplit : (ks.map (fun k => optSum ((rowsWithKey keyf (r :: df) k).map m))).sum
        = (ks.map (fun k => if keyf r = some k then (m r).getD 0 else 0)).sum
          + (ks.map (fun k => optSum ((rowsWithKey keyf df k).map m))).sum := by
      rw [← sum_map_add]
      congr 1
      refine List.map_congr_left ?_
      intro k _
      by_cases h : keyf r = some k
      · simp [rowsWithKey_cons, h, optSum_cons]
      · simp [rowsWithKey_cons, h]
    rw [hsplit, hrest]
    cases hk : keyf r with
    | none =>
      have hz : (ks.map (fun k => if (none : Option κ) = some k then (m r).getD 0 else 0)).sum
          = 0 := by
        rw [List.sum_eq_zero]
        intro x hx
        rcases List.mem_map.1 hx with ⟨k, _, rfl⟩
        simp
      rw [hz]
      simp [List.filter_cons, hk]
    | some a =>
      have hmem : a ∈ ks := hcov r (List.mem_cons_self _ _) a hk
      have heq : (ks.map (fun k => if (some a : Option κ) = some k then (m r).getD 0 else 0))
          = (ks.map (fun k => if a = k then (m r).getD 0 else 0)) := by
        refine List.map_congr_left ?_
        intro k _
        simp
      rw [heq, sum_if_eq ks hnd a hmem]
      simp [List.filter_cons, hk, optSum_cons]

lemma groupAggSum_keys_nodup {κ : Type} [DecidableEq κ] (kle : κ → κ → Prop)
    [DecidableRel kle] (keyf : Event → Option κ) (df : List Event) :
    (List.insertionSort kle (df.filterMap keyf).dedup).Nodup :=
  ((List.perm_insertionSort kle _).nodup_iff).2 (List.nodup_dedup _)

lemma groupAggSum_keys_cover {κ : Type} [DecidableEq κ] (kle : κ → κ → Prop)
    [DecidableRel kle] (keyf : Event → Option κ) (df : List Event) :
    ∀ r ∈ df, ∀ k, keyf r = some k →
      k ∈ List.insertionSort kle (df.filterMap keyf).dedup := by
  intro r hr k hk
  rw [List.mem_insertionSort, List.mem_dedup]
  exact List.mem_filterMap.2 ⟨r, hr, hk⟩

lemma groupAggSum_sum_mins {κ : Type} [DecidableEq κ] (kle : κ → κ → Prop)
    [DecidableRel kle] (keyf : Event → Option κ) (df : List Event) :
    ((groupAggSum kle keyf df).map (fun g => g.mins_played)).sum
      = optSum ((df.filter (fun r => (keyf r).isSome)).map (fun r => r.mins_played)) := by
  unfold groupAggSum
  rw [List.map_map]
  exact group_sum_eq keyf (fun r => r.mins_played) _
    (groupAggSum_keys_nodup kle keyf df) df (groupAggSum_keys_cover kle keyf df)

lemma groupAggSum_sum_hours {κ : Type} [DecidableEq κ] (kle : κ → κ → Prop)
    [DecidableRel kle] (keyf : Event → Option κ) (df : List Event) :
    ((groupAggSum kle keyf df).map (fun g => g.hours_played)).sum
      = optSum ((df.filter (fun r => (keyf r).isSome)).map (fun r => r.hours_played)) := by
  unfold groupAggSum
  rw [List.map_map]
  exact group_sum_eq keyf (fun r => r.hours_played) _
    (groupAggSum_keys_nodup kle keyf df) df (groupAggSum_keys_cover kle keyf df)

lemma groupAggSum_sum_days {κ : Type} [DecidableEq κ] (kle : κ → κ → Prop)
    [DecidableRel kle] (keyf : Event → Option κ) (df : List Event) :
    ((groupAggSum kle keyf df).map (fun g => g.days_played)).sum
      = optSum ((df.filter (fun r => (keyf r).isSome)).map (fun r => r.days_played)) := by
  unfold groupAggSum
  rw [List.map_map]
  exact group_sum_eq keyf (fun r => r.days_played) _
    (groupAggSum_keys_nodup kle keyf df) df (groupAggSum_keys_cover kle keyf df)

lemma sort_values_sum_measure {κ : Type} (rows : List (AggRow κ)) (sel : AggRow κ → ℚ) :
    ((sort_values_mins_desc rows).map sel).sum = (rows.map sel).sum :=
  ((List.perm_insertionSort mins_desc rows).map sel).sum_eq

/-! ### Claim theorems (part 1) -/

/-- C1.  Summing the per-group summed minutes over all groups of the artist
aggregation (as computed by `groupby/agg/sort_values`, before the display
`round(2)` reassignment) equals the total minutes over the rows whose artist
is non-null, and likewise for hours and days. -/
theorem aggregation_sums_conserved (df : List Event) :
    ((list_time_by_artist0 df).map (fun g => g.mins_played)).sum
        = optSum ((df.filter (fun r => (r.artist).isSome)).map (fun r => r.mins_played))
    ∧ ((list_time_by_artist0 df).map (fun g => g.hours_played)).sum
        = optSum ((df.filter (fun r => (r.artist).isSome)).map (fun r => r.hours_played))
    ∧ ((list_time_by_artist0 df).map (fun g => g.days_played)).sum
        = optSum ((df.filter (fun r => (r.artist).isSome)).map (fun r => r.days_played)) :=
  ⟨(sort_values_sum_measure _ _).trans (groupAggSum_sum_mins _ _ df),
   (sort_values_sum_measure _ _).trans (groupAggSum_sum_hours _ _ df),
   (sort_values_sum_measure _ _).trans (groupAggSum_sum_days _ _ df)⟩

/-- C2.  Whenever the loader succeeds, the unified table has exactly the sum of
the row counts of the `.json` input files: concatenation drops no row and
duplicates no row. -/
theorem read_jsons_row_count (data_dir : List (String × List RawEvent))
    (t : List RawEvent) (h : read_jsons_to_df data_dir = Except.ok t) :
    t.length = ((data_dir.filter (fun f => hasJsonExt f.1)).map (fun f => f.2.length)).sum := by
  unfold read_jsons_to_df at h
  by_cases he : ((data_dir.filter (fun f => hasJsonExt f.1)).map (fun f => f.2)).isEmpty
  · simp [he] at h
  · simp only [he, if_neg, Bool.false_eq_true, not_false_iff, if_false] at h
    cases h
    rw [List.length_flatten, List.map_map]
    rfl

/-- Witness for C2 at a directory of two `.json` files with 1 and 2 rows. -/
theorem read_jsons_row_count_witness :
    ([exRaw1, exRaw2, exRawNull] : List RawEvent).length
      = ((exDir.filter (fun f => hasJsonExt f.1)).map (fun f => f.2.length)).sum :=
  read_jsons_row_count exDir [exRaw1, exRaw2, exRawNull] rfl

/-- C3.  Per row, the enricher derives `mins_played = ms_played/60000`,
`hours_played = mins_played/60`, `days_played = hours_played/24`, and a null
`ms_played` propagates as null in all three derived columns (the derivation is
total, so no error is possible). -/
theorem duration_derivation (r : RawEvent) :
    ((enrich_row r).mins_played = r.ms_played.map (fun m => m / 60000)
      ∧ (enrich_row r).hours_played = (enrich_row r).mins_played.map (fun m => m / 60)
      ∧ (enrich_row r).days_played = (enrich_row r).hours_played.map (fun h => h / 24))
    ∧ (r.ms_played = none →
        (enrich_row r).mins_played = none
          ∧ (enrich_row r).hours_played = none
          ∧ (enrich_row r).days_played = none) := by
  refine ⟨⟨rfl, rfl, rfl⟩, ?_⟩
  intro h
  simp [enrich_row, h]

/-- Witness for C3 at a record with a null `ms_played`. -/
theorem duration_derivation_witness :
    (enrich_row exRawNull).mins_played = none
      ∧ (enrich_row exRawNull).hours_played = none
      ∧ (enrich_row exRawNull).days_played = none :=
  (duration_derivation exRawNull).2 rfl

/-- C7 counterexample.  On a schema that lacks two of the three expected source
columns (here only the album column is present), the rename step does not
abort: it returns successfully, renaming the present column and passing the
rest through.  The claim predicts an error on this input. -/
theorem rename_missing_column_counterexample :
    df_rename ["master_metadata_album_album_name", "ts"] = Except.ok ["album", "ts"] := rfl

/-- C7 as amended.  The rename step never aborts: each of the three source
columns that is present is renamed to `artist`/`album`/`song`, every other
column passes through unchanged, and absent source columns are silently
ignored. -/
theorem rename_never_aborts (cols : List String) :
    df_rename cols = Except.ok (cols.map (fun c =>
      if c = "master_metadata_album_artist_name" then "artist"
      else if c = "master_metadata_album_album_name" then "album"
      else if c = "master_metadata_track_name" then "song" else c)) := by
  unfold df_rename
  refine congrArg Except.ok (List.map_congr_left ?_)
  intro c _
  by_cases h1 : c = "master_metadata_album_artist_name"
  · subst h1; rfl
  · by_cases h2 : c = "master_metadata_album_album_name"
    · subst h2; rfl
    · by_cases h3 : c = "master_metadata_track_name"
      · subst h3; rfl
      · have e1 : ("master_metadata_album_artist_name" == c) = false :=
          beq_eq_false_iff_ne.2 (Ne.symm h1)
        have e2 : ("master_metadata_album_album_name" == c) = false :=
          beq_eq_false_iff_ne.2 (Ne.symm h2)
        have e3 : ("master_metadata_track_name" == c) = false :=
          beq_eq_false_iff_ne.2 (Ne.symm h3)
        simp [rename_mapping, List.find?, e1, e2, e3, h1, h2, h3]

/-- C10.  With no `.json` file in the directory the loader raises (the
`pd.concat` of an empty list), and it can return a table only when at least
one `.json` file is present. -/
theorem read_jsons_empty_error (data_dir : List (String × List RawEvent)) :
    ((∀ f ∈ data_dir, hasJsonExt f.1 = false) →
        read_jsons_to_df data_dir = Except.error "No objects to concatenate")
    ∧ (∀ t, read_jsons_to_df data_dir = Except.ok t →
        ∃ f ∈ data_dir, hasJsonExt f.1 = true) := by
  constructor
  · intro hall
    have : data_dir.filter (fun f => hasJsonExt f.1) = [] :=
      List.filter_eq_nil_iff.2 (fun f hf => by simp [hall f hf])
    unfold read_jsons_to_df
    simp [this]
  · intro t ht
    by_contra hno
    push_neg at hno
    have hall : ∀ f ∈ data_dir, hasJsonExt f.1 = false := by
      intro f hf
      have := hno f hf
      simpa using this
    have : data_dir.filter (fun f => hasJsonExt f.1) = [] :=
      List.filter_eq_nil_iff.2 (fun f hf => by simp [hall f hf])
    unfold read_jsons_to_df at ht
    simp [this] at ht

/-- Witness for C10 at a directory holding a single non-`.json` file. -/
theorem read_jsons_empty_error_witness :
    read_jsons_to_df [("readme.txt", ([] : List RawEvent))]
      = Except.error "No objects to concatenate" :=
  (read_jsons_empty_error _).1 (by decide)

/-! ### Null-key policy and the distinct-count aggregation -/

lemma filterMap_filter_isSome {α β : Type} (f : α → Option β) (l : List α) :
    (l.filter (fun x => (f x).isSome)).filterMap f = l.filterMap f := by
  induction l with
  | nil => rfl
  | cons x l ih =>
    cases hf : f x with
    | none => simp [List.filter_cons, List.filterMap_cons, hf, ih]
    | some b => simp [List.filter_cons, List.filterMap_cons, hf, ih]

lemma filterMap_filter_and_isSome {α β : Type} (f : α → Option β) (p : α → Bool)
    (l : List α) :
    (l.filter (fun x => p x && (f x).isSome)).filterMap f
      = (l.filter p).filterMap f := by
  induction l with
  | nil => rfl
  | cons x l ih =>
    cases hf : f x with
    | none =>
      by_cases hp : p x <;>
        simp [List.filter_cons, List.filterMap_cons, hf, hp, ih]
    | some b =>
      by_cases hp : p x <;>
        simp [List.filter_cons, List.filterMap_cons, hf, hp, ih]

lemma rowsWithKey_drop_null {κ : Type} [DecidableEq κ] (keyf : Event → Option κ)
    (df : List Event) (k : κ) :
    rowsWithKey keyf (df.filter (fun r => (keyf r).isSome)) k = rowsWithKey keyf df k := by
  unfold rowsWithKey
  rw [List.filter_filter]
  refine List.filter_congr ?_
  intro r _
  cases hf : keyf r <;> simp [hf]

lemma groupAggSum_drop_null {κ : Type} [DecidableEq κ] (kle : κ → κ → Prop)
    [DecidableRel kle] (keyf : Event → Option κ) (df : List Event) :
    groupAggSum kle keyf (df.filter (fun r => (keyf r).isSome))
      = groupAggSum kle keyf df := by
  unfold groupAggSum
  simp only [filterMap_filter_isSome, rowsWithKey_drop_null]

lemma list_time_by_artist_drop_null (df : List Event) :
    list_time_by_artist (df.filter (fun r => (r.artist).isSome)) = list_time_by_artist df := by
  unfold list_time_by_artist list_time_by_artist0
  rw [groupAggSum_drop_null]

lemma top_15_artists_drop_null (df : List Event) :
    top_15_artists (df.filter (fun r => (r.artist).isSome)) = top_15_artists df := by
  unfold top_15_artists
  rw [list_time_by_artist_drop_null]

lemma filtered_df_drop_null (df : List Event) :
    filtered_df (df.filter (fun r => (r.artist).isSome)) = filtered_df df := by
  unfold filtered_df
  rw [top_15_artists_drop_null, List.filter_filter]
  refine List.filter_congr ?_
  intro r _
  cases hf : r.artist <;> simp [hf]

/-- C8.  The distinct-count aggregation returns, per year, the number of
distinct artist values among that year's rows; every year of the table gets a
row; and on the spec's scenario table the output contains `(2022, 2)`. -/
theorem nunique_by_year_correct :
    (∀ (df : List Event) (p : Int × Nat), p ∈ nunique_by_year df →
        p.2 = distinctArtistsInYear df p.1)
    ∧ (∀ (df : List Event) (r : Event), r ∈ df →
        (r.Year, distinctArtistsInYear df r.Year) ∈ nunique_by_year df)
    ∧ (2022, 2) ∈ nunique_by_year exC8 := by
  refine ⟨?_, ?_, by decide⟩
  · intro df p hp
    rcases List.mem_map.1 hp with ⟨y, _, heq⟩
    cases heq
    rfl
  · intro df r hr
    unfold nunique_by_year
    refine List.mem_map.2 ⟨r.Year, ?_, rfl⟩
    rw [List.mem_insertionSort, List.mem_dedup]
    exact List.mem_map.2 ⟨r, hr, rfl⟩

/-- Witness for C8: both universally quantified parts applied to the scenario
table at year 2022. -/
theorem nunique_by_year_witness :
    ((2022 : Int), (2 : Nat)).2 = distinctArtistsInYear exC8 2022
    ∧ ((enrich_row exC8r1).Year, distinctArtistsInYear exC8 (enrich_row exC8r1).Year)
        ∈ nunique_by_year exC8 :=
  ⟨nunique_by_year_correct.1 exC8 (2022, 2) (by decide),
   nunique_by_year_correct.2.1 exC8 (enrich_row exC8r1) (by decide)⟩

/-- C9.  The null-key policy the notebook fixes is "dropped": every grouped
aggregation is unchanged by removing the rows whose grouping key is null
beforehand (so no null bucket ever appears), and the per-year distinct artist
count only counts rows with a non-null artist. -/
theorem null_keys_dropped :
    (∀ df : List Event,
        list_time_by_artist (df.filter (fun r => (r.artist).isSome)) = list_time_by_artist df)
    ∧ (∀ df : List Event,
        list_time_by_album (df.filter (fun r => (r.album).isSome)) = list_time_by_album df)
    ∧ (∀ df : List Event,
        list_time_by_song (df.filter (fun r => (r.song).isSome)) = list_time_by_song df)
    ∧ (∀ df : List Event,
        list_time_by_month (df.filter (fun r => (r.artist).isSome)) = list_time_by_month df)
    ∧ (∀ (df : List Event) (y : Int) (n : Nat), (y, n) ∈ nunique_by_year df →
        n = nunique (((df.filter (fun r => (r.artist).isSome)).filter
          (fun r => r.Year = y)).map (fun r => r.artist))) := by
  refine ⟨list_time_by_artist_drop_null, ?_, ?_, ?_, ?_⟩
  · intro df
    unfold list_time_by_album
    rw [groupAggSum_drop_null]
  · intro df
    unfold list_time_by_song
    rw [groupAggSum_drop_null]
  · intro df
    unfold list_time_by_month list_time_by_month0
    rw [filtered_df_drop_null]
  · intro df y n h
    rcases List.mem_map.1 h with ⟨y', _, heq⟩
    cases heq
    show nunique _ = _
    rw [List.filter_comm]
    unfold nunique
    rw [List.filterMap_map, List.filterMap_map]
    simp only [Function.id_comp]
    rw [filterMap_filter_isSome]

/-- Witness for C9: the distinct-count clause applied to the scenario table at
`(2022, 2)`. -/
theorem null_keys_dropped_witness :
    (2 : Nat) = nunique (((exC8.filter (fun r => (r.artist).isSome)).filter
      (fun r => r.Year = 2022)).map (fun r => r.artist)) :=
  null_keys_dropped.2.2.2.2 exC8 2022 2 (by decide)

/-! ### Monotonicity of `round(2)` -/

lemma nearestEvenInt_ge_floor (q : ℚ) : ⌊q⌋ ≤ nearestEvenInt q := by
  unfold nearestEvenInt
  split_ifs <;> omega

lemma nearestEvenInt_le_floor_add_one (q : ℚ) : nearestEvenInt q ≤ ⌊q⌋ + 1 := by
  unfold nearestEvenInt
  split_ifs <;> omega

lemma nearestEvenInt_mono {x y : ℚ} (h : x ≤ y) :
    nearestEvenInt x ≤ nearestEvenInt y := by
  by_cases heq : ⌊x⌋ = ⌊y⌋
  · unfold nearestEvenInt
    rw [heq]
    have hxy : x - ⌊y⌋ ≤ y - ⌊y⌋ := by linarith
    split_ifs <;> first | omega | linarith
  · have hlt : ⌊x⌋ + 1 ≤ ⌊y⌋ := by
      have := Int.floor_le_floor (α := ℚ) h
      omega
    calc nearestEvenInt x ≤ ⌊x⌋ + 1 := nearestEvenInt_le_floor_add_one x
      _ ≤ ⌊y⌋ := hlt
      _ ≤ nearestEvenInt y := nearestEvenInt_ge_floor y

lemma round2_mono {x y : ℚ} (h : x ≤ y) : round2 x ≤ round2 y := by
  unfold round2
  have h1 : nearestEvenInt (x * 100) ≤ nearestEvenInt (y * 100) :=
    nearestEvenInt_mono (by linarith)
  have h2 : ((nearestEvenInt (x * 100) : ℚ)) ≤ ((nearestEvenInt (y * 100) : ℚ)) := by
    exact_mod_cast h1
  have h100 : (0:ℚ) < 100 := by norm_num
  exact (div_le_div_iff_of_pos_right h100).2 h2

/-! ### Order facts about the sorts used by the pipeline -/

lemma aggLex_trans {κ : Type} {klt : κ → κ → Prop} (ht : Transitive klt)
    {a b c : AggRow κ} (h1 : aggLex klt a b) (h2 : aggLex klt b c) :
    aggLex klt a c := by
  rcases h1 with h1 | ⟨e1, k1⟩ <;> rcases h2 with h2 | ⟨e2, k2⟩
  · exact Or.inl (lt_trans h2 h1)
  · exact Or.inl (by rw [e2]; exact h1)
  · exact Or.inl (by rw [← e1]; exact h2)
  · exact Or.inr ⟨e2.trans e1, ht k1 k2⟩

lemma orderedInsert_aggLex {κ : Type} (klt : κ → κ → Prop) (ht : Transitive klt)
    (a : AggRow κ) :
    ∀ l : List (AggRow κ), l.Pairwise (aggLex klt) → (∀ b ∈ l, klt a.key b.key) →
      (l.orderedInsert mins_desc a).Pairwise (aggLex klt) := by
  intro l
  induction l with
  | nil =>
    intro _ _
    exact List.pairwise_singleton _ _
  | cons b l ih =>
    intro hp h2
    show (List.orderedInsert mins_desc a (b :: l)).Pairwise (aggLex klt)
    rw [List.orderedInsert]
    by_cases hab : mins_desc a b
    · rw [if_pos hab]
      have hQab : aggLex klt a b := by
        have hab' : b.mins_played ≤ a.mins_played := hab
        rcases hab'.lt_or_eq with hlt | heq
        · exact Or.inl hlt
        · exact Or.inr ⟨heq, h2 b (List.mem_cons_self _ _)⟩
      refine List.pairwise_cons.2 ⟨?_, hp⟩
      intro c hc
      rcases List.mem_cons.1 hc with rfl | hcl
      · exact hQab
      · exact aggLex_trans ht hQab (List.rel_of_pairwise_cons hp hcl)
    · rw [if_neg hab]
      have hba : a.mins_played < b.mins_played := lt_of_not_le hab
      refine List.pairwise_cons.2
        ⟨?_, ih (List.pairwise_cons.1 hp).2 (fun c hc => h2 c (List.mem_cons_of_mem _ hc))⟩
      intro c hc
      rcases (List.mem_orderedInsert mins_desc).1 hc with rfl | hcl
      · exact Or.inl hba
      · exact (List.pairwise_cons.1 hp).1 c hcl

/-- Stability of the embedded `sort_values`: sorting a strictly-ascending-key
table descending by minutes leaves equal-minutes groups in ascending key
order. -/
lemma insertionSort_aggLex {κ : Type} (klt : κ → κ → Prop) (ht : Transitive klt) :
    ∀ l : List (AggRow κ), l.Pairwise (fun a b => klt a.key b.key) →
      (List.insertionSort mins_desc l).Pairwise (aggLex klt) := by
  intro l
  induction l with
  | nil =>
    intro _
    simp
  | cons a l ih =>
    intro hp
    show (List.orderedInsert mins_desc a (List.insertionSort mins_desc l)).Pairwise _
    refine orderedInsert_aggLex klt ht a _ (ih (List.pairwise_cons.1 hp).2) ?_
    intro b hb
    exact (List.pairwise_cons.1 hp).1 b ((List.mem_insertionSort mins_desc).1 hb)

lemma groupAggSum_pairwise_keys {κ : Type} [DecidableEq κ] (kle klt : κ → κ → Prop)
    [DecidableRel kle] [IsTotal κ kle] [IsTrans κ kle]
    (hlt : ∀ a b, kle a b → a ≠ b → klt a b) (keyf : Event → Option κ)
    (df : List Event) :
    (groupAggSum kle keyf df).Pairwise (fun a b => klt a.key b.key) := by
  unfold groupAggSum
  rw [List.pairwise_map]
  have hs : (List.insertionSort kle (df.filterMap keyf).dedup).Pairwise kle :=
    List.sorted_insertionSort kle _
  have hn : (List.insertionSort kle (df.filterMap keyf).dedup).Pairwise (· ≠ ·) :=
    groupAggSum_keys_nodup kle keyf df
  exact (hs.and hn).imp (fun h => hlt _ _ h.1 h.2)

lemma list_time_by_artist0_pairwise (df : List Event) :
    (list_time_by_artist0 df).Pairwise (aggLex (fun a b : String => a.data < b.data)) := by
  unfold list_time_by_artist0 sort_values_mins_desc
  refine insertionSort_aggLex (fun a b : String => a.data < b.data)
    (fun a b c h1 h2 => lt_trans h1 h2) _ ?_
  exact groupAggSum_pairwise_keys strDataLe _
    (fun a b h hne => lt_of_le_of_ne h (fun hd => hne (String.ext hd))) _ df

/-! ### C4: sort order of the artist ranking -/

/-- C4 counterexample.  On `exC4` both artists tie at 1.0 summed minutes, yet
the aggregation lists `A` before `B` while the encounter order is `B` before
`A`: grouping pre-sorts the keys alphabetically, so ties do not follow
encounter order. -/
theorem artist_sort_encounter_counterexample :
    (list_time_by_artist exC4).map (fun g => g.key) = ["A", "B"]
    ∧ (list_time_by_artist exC4).map (fun g => g.mins_played) = [1, 1]
    ∧ encounterOrder exC4 = ["B", "A"]
    ∧ ¬ tiesInEncounterOrder exC4 := by
  have h : list_time_by_artist exC4 =
      [{ key := "A", mins_played := 1, hours_played := 1/50, days_played := 0 },
       { key := "B", mins_played := 1, hours_played := 1/50, days_played := 0 }] := by
    norm_num +decide [exC4, enrich, enrich_row, list_time_by_artist, list_time_by_artist0,
      sort_values_mins_desc, groupAggSum, rowsWithKey, optSum, roundAggRow, round2,
      nearestEvenInt, List.insertionSort, List.orderedInsert, mins_desc, strDataLe,
      List.filter_cons, List.filterMap_cons]
  have henc : encounterOrder exC4 = ["B", "A"] := by decide
  refine ⟨by rw [h]; rfl, by rw [h]; rfl, henc, ?_⟩
  intro habs
  unfold tiesInEncounterOrder at habs
  rw [h, henc] at habs
  have := (List.pairwise_cons.1 habs).1 _ (List.mem_cons_self _ _) rfl
  exact absurd this (by decide)

lemma list_time_by_artist_pairwise_round (df : List Event) :
    (list_time_by_artist df).Pairwise mins_desc := by
  unfold list_time_by_artist
  refine List.Pairwise.map roundAggRow ?_ (list_time_by_artist0_pairwise df)
  intro a b hab
  show round2 b.mins_played ≤ round2 a.mins_played
  refine round2_mono ?_
  rcases hab with hlt | ⟨heq, _⟩
  · exact le_of_lt hlt
  · exact le_of_eq heq

/-- C4 as amended.  The artist ranking is in non-increasing order of summed
minutes, and in the full-precision aggregation, groups with equal summed
minutes appear in ascending lexicographic (code-point) order of the artist
name — the grouping step pre-sorts the keys, so encounter order is not what
breaks ties. -/
theorem artist_sort_order (df : List Event) :
    (list_time_by_artist df).Pairwise mins_desc
    ∧ (list_time_by_artist0 df).Pairwise (fun a b =>
        b.mins_played < a.mins_played
        ∨ (b.mins_played = a.mins_played ∧ a.key.data < b.key.data)) :=
  ⟨list_time_by_artist_pairwise_round df, list_time_by_artist0_pairwise df⟩

/-! ### C5 and C6: the top-15 selection and the artist-by-year re-aggregation -/

lemma list_time_by_artist0_sorted (df : List Event) :
    (list_time_by_artist0 df).Pairwise mins_desc := by
  refine (list_time_by_artist0_pairwise df).imp ?_
  intro a b h
  rcases h with h | ⟨e, _⟩
  · exact le_of_lt h
  · exact le_of_eq e

/-- Re-sorting the rounded artist table is the identity: the table is already
sorted descending by its (rounded) minutes, since rounding is monotone. -/
lemma top_15_artists_eq_take (df : List Event) :
    top_15_artists df = ((list_time_by_artist0 df).take 15).map roundAggRow := by
  unfold top_15_artists sort_values_mins_desc
  rw [List.Sorted.insertionSort_eq (list_time_by_artist_pairwise_round df)]
  unfold list_time_by_artist
  rw [← List.map_take]

lemma top_15_keys (df : List Event) :
    (top_15_artists df).map (fun g => g.key)
      = ((list_time_by_artist0 df).take 15).map (fun g => g.key) := by
  rw [top_15_artists_eq_take, List.map_map]
  rfl

lemma groupAggSum_map_key {κ : Type} [DecidableEq κ] (kle : κ → κ → Prop)
    [DecidableRel kle] (keyf : Event → Option κ) (df : List Event) :
    (groupAggSum kle keyf df).map (fun g => g.key)
      = List.insertionSort kle (df.filterMap keyf).dedup := by
  unfold groupAggSum
  rw [List.map_map]
  exact (List.map_congr_left fun k _ => rfl).trans (List.map_id _)

lemma mem_list0_mins (df : List Event) {g : AggRow String}
    (hg : g ∈ list_time_by_artist0 df) :
    g.mins_played = artistTotalMins df g.key := by
  unfold list_time_by_artist0 sort_values_mins_desc at hg
  rw [List.mem_insertionSort] at hg
  unfold groupAggSum at hg
  rcases List.mem_map.1 hg with ⟨k, _, rfl⟩
  rfl

lemma list0_keys_perm (df : List Event) :
    ((list_time_by_artist0 df).map (fun g => g.key)).Perm (artistKeys df) := by
  unfold list_time_by_artist0 sort_values_mins_desc
  refine ((List.perm_insertionSort mins_desc _).map _).trans ?_
  rw [groupAggSum_map_key]
  exact List.perm_insertionSort strDataLe _

/-- In a table sorted descending by minutes, a row of the first `n` entries is
strictly exceeded by fewer than `n` rows. -/
lemma filter_gt_take :
    ∀ (L : List (AggRow String)) (n : Nat), L.Pairwise mins_desc →
      ∀ g0 ∈ L.take n,
        (L.filter (fun g => g0.mins_played < g.mins_played)).length < n := by
  intro L
  induction L with
  | nil =>
    intro n _ g0 hg0
    simp at hg0
  | cons a L ih =>
    intro n hp g0 hg0
    cases n with
    | zero => simp at hg0
    | succ m =>
      rw [List.take_succ_cons] at hg0
      rcases List.mem_cons.1 hg0 with heq | hg0'
      · subst heq
        have hz : (g0 :: L).filter (fun g => g0.mins_played < g.mins_played) = [] := by
          rw [List.filter_eq_nil_iff]
          intro g hg
          rcases List.mem_cons.1 hg with heq2 | hgl
          · subst heq2
            simp
          · have hle : mins_desc g0 g := List.rel_of_pairwise_cons hp hgl
            have hnlt : ¬ g0.mins_played < g.mins_played := not_lt.2 hle
            simp [hnlt]
        rw [hz]
        simp
      · have hlen := ih m (List.pairwise_cons.1 hp).2 g0 hg0'
        rw [List.filter_cons]
        simp only [decide_eq_true_eq]
        by_cases hc : g0.mins_played < a.mins_played
        · rw [if_pos hc, List.length_cons]
          omega
        · rw [if_neg hc]
          omega

/-- An artist appearing among the first 15 rows of the (rounded, re-sorted)
all-time ranking is strictly exceeded in full-precision summed minutes by
fewer than 15 artists. -/
lemma count_bound (df : List Event) (a : String)
    (ha : ∃ t ∈ top_15_artists df, t.key = a) :
    ((artistKeys df).filter
      (fun b => artistTotalMins df a < artistTotalMins df b)).length < 15 := by
  rcases ha with ⟨t, htmem, rfl⟩
  rw [top_15_artists_eq_take] at htmem
  rcases List.mem_map.1 htmem with ⟨g1, hg1, rfl⟩
  show ((artistKeys df).filter
    (fun b => artistTotalMins df g1.key < artistTotalMins df b)).length < 15
  have hperm := (list0_keys_perm df).symm
  have hcount : ((artistKeys df).filter
      (fun b => artistTotalMins df g1.key < artistTotalMins df b)).length
      = ((list_time_by_artist0 df).filter
        (fun g => artistTotalMins df g1.key < artistTotalMins df g.key)).length := by
    rw [(hperm.filter _).length_eq, List.filter_map, List.length_map]
    rfl
  rw [hcount]
  have hcong : (list_time_by_artist0 df).filter
        (fun g => artistTotalMins df g1.key < artistTotalMins df g.key)
      = (list_time_by_artist0 df).filter
        (fun g => artistTotalMins df g1.key < g.mins_played) := by
    refine List.filter_congr ?_
    intro g hgmem
    rw [mem_list0_mins df hgmem]
  rw [hcong]
  have hg1mem : g1 ∈ list_time_by_artist0 df := List.take_subset 15 _ hg1
  rw [← mem_list0_mins df hg1mem]
  exact filter_gt_take _ 15 (list_time_by_artist0_sorted df) g1 hg1

lemma artistYearKey_eq_some (r : Event) (k : String × Int) :
    artistYearKey r = some k ↔ (r.artist = some k.1 ∧ r.Year = k.2) := by
  cases k with
  | mk a y => cases hr : r.artist <;> simp [artistYearKey, hr, Prod.ext_iff, and_comm]

/-- Facts about a row of the pre-rounding artist-by-year table: its artist is
one of the selected top-15 keys and its summed minutes is the full-precision
sum over the raw table restricted to that artist and year. -/
lemma mem_month0_facts (df : List Event) {g : AggRow (String × Int)}
    (hg : g ∈ list_time_by_month0 df) :
    (∃ t ∈ top_15_artists df, t.key = g.key.1)
    ∧ g.mins_played = optSum ((df.filter
        (fun r => r.artist = some g.key.1 ∧ r.Year = g.key.2)).map
          (fun r => r.mins_played)) := by
  unfold list_time_by_month0 sort_values_mins_desc at hg
  rw [List.mem_insertionSort] at hg
  unfold groupAggSum at hg
  rcases List.mem_map.1 hg with ⟨k, hk, rfl⟩
  rw [List.mem_insertionSort, List.mem_dedup] at hk
  rcases List.mem_filterMap.1 hk with ⟨r, hrmem, hrkey⟩
  have hr2 := hrmem
  unfold filtered_df at hr2
  rcases List.mem_filter.1 hr2 with ⟨_, hrcond⟩
  rcases List.any_eq_true.1 hrcond with ⟨t, htmem, htcond⟩
  have htr : r.artist = some t.key := of_decide_eq_true htcond
  rcases (artistYearKey_eq_some r k).1 hrkey with ⟨hra, _⟩
  have hkey1 : t.key = k.1 := by
    rw [hra] at htr
    exact (Option.some.inj htr).symm
  refine ⟨⟨t, htmem, hkey1⟩, ?_⟩
  show optSum ((rowsWithKey artistYearKey (filtered_df df) k).map (fun r => r.mins_played)) = _
  have hrows : rowsWithKey artistYearKey (filtered_df df) k
      = df.filter (fun r => r.artist = some k.1 ∧ r.Year = k.2) := by
    unfold rowsWithKey filtered_df
    rw [List.filter_filter]
    refine List.filter_congr ?_
    intro x _
    by_cases hx : artistYearKey x = some k
    · rcases (artistYearKey_eq_some x k).1 hx with ⟨hxa, hxy⟩
      simp [hx, hxa, hxy]
      exact ⟨t, htmem, hkey1.symm⟩
    · have hnx : ¬ (x.artist = some k.1 ∧ x.Year = k.2) :=
        fun hc => hx ((artistYearKey_eq_some x k).2 hc)
      simp [hx, hnx]
  rw [hrows]

/-- C5.  Every row of the artist-by-year report names an artist of the
selected top-15 table, that artist is strictly exceeded in all-time summed
minutes by fewer than 15 artists (top 15 overall, not per year), and the
row's value is re-aggregated — up to the final display rounding — from the
full event table restricted to that artist and year. -/
theorem top15_containment (df : List Event) (g : AggRow (String × Int))
    (hg : g ∈ list_time_by_month df) :
    (∃ t ∈ top_15_artists df, t.key = g.key.1)
    ∧ ((artistKeys df).filter
        (fun b => artistTotalMins df g.key.1 < artistTotalMins df b)).length < 15
    ∧ g.mins_played = round2 (optSum ((df.filter
        (fun r => r.artist = some g.key.1 ∧ r.Year = g.key.2)).map
          (fun r => r.mins_played))) := by
  unfold list_time_by_month at hg
  rcases List.mem_map.1 hg with ⟨g0, hg0, rfl⟩
  have hfacts := mem_month0_facts df hg0
  refine ⟨hfacts.1, count_bound df _ hfacts.1, ?_⟩
  show round2 g0.mins_played = round2 (optSum ((df.filter
    (fun r => r.artist = some g0.key.1 ∧ r.Year = g0.key.2)).map (fun r => r.mins_played)))
  rw [hfacts.2]

/-- Witness for C5 at `exC5`, whose report is the single row
`(("X", 2023), 1, 0.02, 0)`. -/
theorem top15_containment_witness :
    (∃ t ∈ top_15_artists exC5, t.key = "X")
    ∧ ((artistKeys exC5).filter
        (fun b => artistTotalMins exC5 "X" < artistTotalMins exC5 b)).length < 15
    ∧ (1 : ℚ) = round2 (optSum ((exC5.filter
        (fun r => r.artist = some "X" ∧ r.Year = 2023)).map
          (fun r => r.mins_played))) :=
  top15_containment exC5 ⟨("X", 2023), 1, 1/50, 0⟩ (by
    norm_num +decide [exC5, enrich, enrich_row, list_time_by_month, list_time_by_month0,
      top_15_artists, filtered_df, list_time_by_artist, list_time_by_artist0,
      sort_values_mins_desc, groupAggSum, rowsWithKey, optSum, roundAggRow, round2,
      nearestEvenInt, List.insertionSort, List.orderedInsert, mins_desc, strDataLe,
      artistYearKey, artistYearLe, List.filter_cons, List.filterMap_cons])

/-- C6 counterexample.  The top-15 selection step consumes the rounded artist
table: on `exC6` the minutes value it sorts by is `0`, not the full-precision
sum `1/600`, so not every value consumed by a further pipeline step is an
unrounded sum. -/
theorem rounding_before_top15_counterexample :
    (top_15_artists exC6).map (fun g => g.mins_played) = [0]
    ∧ artistTotalMins exC6 "A" = 1/600
    ∧ (0 : ℚ) ≠ 1/600 := by
  refine ⟨?_, ?_, by norm_num⟩
  · norm_num +decide [exC6, enrich, enrich_row, top_15_artists, list_time_by_artist,
      list_time_by_artist0, sort_values_mins_desc, groupAggSum, rowsWithKey, optSum,
      roundAggRow, round2, nearestEvenInt, List.insertionSort, List.orderedInsert,
      mins_desc, strDataLe, List.filter_cons, List.filterMap_cons]
  · norm_num +decide [exC6, enrich, enrich_row, artistTotalMins, optSum,
      List.filter_cons, List.filterMap_cons]

/-- C6 as amended.  The top-15 selection sorts the rounded table, but selects
exactly the keys of the first 15 rows of the full-precision ranking (rounding
is monotone and the table is pre-sorted), and the artist-by-year
re-aggregation computes its sums from the full-precision per-row minutes of
the raw table; `round(2)` touches only the displayed copies. -/
theorem rounding_at_reporting_only (df : List Event) :
    (top_15_artists df).map (fun g => g.key)
        = ((list_time_by_artist0 df).take 15).map (fun g => g.key)
    ∧ ∀ g ∈ list_time_by_month0 df,
        g.mins_played = optSum ((df.filter
          (fun r => r.artist = some g.key.1 ∧ r.Year = g.key.2)).map
            (fun r => r.mins_played)) :=
  ⟨top_15_keys df, fun _ hg => (mem_month0_facts df hg).2⟩

/-- Witness for C6 at `exC6`: the single pre-rounding report row carries the
full-precision sum `1/600`. -/
theorem rounding_at_reporting_only_witness :
    ((1 : ℚ)/600) = optSum ((exC6.filter
      (fun r => r.artist = some "A" ∧ r.Year = 2023)).map (fun r => r.mins_played)) :=
  (rounding_at_reporting_only exC6).2 ⟨("A", 2023), 1/600, 1/36000, 1/864000⟩ (by
    norm_num +decide [exC6, enrich, enrich_row, list_time_by_month0, top_15_artists,
      filtered_df, list_time_by_artist, list_time_by_artist0, sort_values_mins_desc,
      groupAggSum, rowsWithKey, optSum, roundAggRow, round2, nearestEvenInt,
      List.insertionSort, List.orderedInsert, mins_desc, strDataLe, artistYearKey,
      artistYearLe, List.filter_cons, List.filterMap_cons])

end SpotifyAnalysis
